import Mathlib

/-
Verification of `django_otp/models.py`: the abstract `Device` model and its
`DeviceManager`. Strings are modelled as `List Char`, the database as a list
of device rows, and the ORM read operations (`filter`, `get`) as pure reads
that return the database unchanged. The exception behaviour of the Python 2
source is modelled explicitly: the `except StandardError` clause in
`from_persistent_id` catches ValueError, ImportError and AttributeError,
but Django's `DoesNotExist` and `MultipleObjectsReturned` subclass
`Exception` directly (not `StandardError`), so a failing `get` escapes.
-/

/-- A framework user: primary key plus username (`auth.User`). -/
structure User where
  pk : Nat
  username : List Char
  deriving DecidableEq

/-- A concrete device class, identified by its defining module name
(`self.__module__`) and its class name (`self.__class__.__name__`). -/
structure DeviceClass where
  modName : List Char
  clsName : List Char
  deriving DecidableEq

/-- A saved device row: its concrete class, primary key `id`, and the three
declared fields `user`, `name`, `confirmed`. -/
structure Device where
  cls : DeviceClass
  id : Nat
  user : User
  name : List Char
  confirmed : Bool
  deriving DecidableEq

/-- The database: the set of saved device rows (of all concrete classes). -/
abbrev DB := List Device

/-- A Python value, as far as the `confirmed` argument of
`devices_for_user` is concerned: `None`, a bool, an int or a string. -/
inductive PyVal where
  | none
  | bool (b : Bool)
  | int (n : Int)
  | str (s : List Char)
  deriving DecidableEq

/-- Python truthiness `bool(c)` on the modelled values. -/
def PyVal.toBool : PyVal → Bool
  | PyVal.none => false
  | PyVal.bool b => b
  | PyVal.int n => decide (n ≠ 0)
  | PyVal.str s => decide (s ≠ [])

/-- The decimal digit character for a residue `r < 10`. -/
def digitChar : Nat → Char
  | 0 => '0'
  | 1 => '1'
  | 2 => '2'
  | 3 => '3'
  | 4 => '4'
  | 5 => '5'
  | 6 => '6'
  | 7 => '7'
  | 8 => '8'
  | _ => '9'

/-- Accumulator loop for rendering a natural number in decimal. -/
def natToCharsAux : Nat → List Char → List Char
  | 0, acc => acc
  | n + 1, acc => natToCharsAux ((n + 1) / 10) (digitChar ((n + 1) % 10) :: acc)
  decreasing_by simp_wf; omega

/-- Decimal rendering of a natural number, as Python `str` renders a
nonnegative int (used for `'{0}/{1}'.format(..., self.id)`). -/
def natToChars (n : Nat) : List Char :=
  if n = 0 then ['0'] else natToCharsAux n []

/-- One step of decimal accumulation while parsing digits. -/
def digitsStep (a : Nat) (c : Char) : Nat := a * 10 + (c.toNat - 48)

/-- Python `int(s)` after whitespace stripping: one optional sign, then at
least one decimal digit; anything else raises ValueError (`Option.none`). -/
def parseSigned : List Char → Option Int
  | '+' :: rest =>
    if rest ≠ [] ∧ rest.all Char.isDigit then some ((rest.foldl digitsStep 0 : Nat) : Int)
    else Option.none
  | '-' :: rest =>
    if rest ≠ [] ∧ rest.all Char.isDigit then some (-((rest.foldl digitsStep 0 : Nat) : Int))
    else Option.none
  | t =>
    if t ≠ [] ∧ t.all Char.isDigit then some ((t.foldl digitsStep 0 : Nat) : Int)
    else Option.none

/-- Python `int(s)`, as the framework coerces the primary-key lookup value:
surrounding whitespace is stripped, an optional sign is allowed, then
decimal digits; everything else raises ValueError (`Option.none`). -/
def parsePyInt (cs : List Char) : Option Int :=
  parseSigned (((cs.dropWhile Char.isWhitespace).reverse.dropWhile
    Char.isWhitespace).reverse)

/-- Python `path.rsplit(sep, 1)` restricted to the two-part case: splits at
the LAST occurrence of `sep` into (left, right); `Option.none` when `sep`
does not occur (in Python the two-variable unpacking then raises). -/
def rsplitLast (sep : Char) : List Char → Option (List Char × List Char)
  | [] => Option.none
  | c :: cs =>
    match rsplitLast sep cs with
    | some (l, r) => some (c :: l, r)
    | Option.none => if c = sep then some ([], cs) else Option.none

/-- `'{0}.{1}'.format(self.__module__, self.__class__.__name__)` for a class. -/
def DeviceClass.import_path (c : DeviceClass) : List Char :=
  c.modName ++ '.' :: c.clsName

/-- `Device.import_path`: the import path of the device's concrete class. -/
def Device.import_path (d : Device) : List Char :=
  d.cls.import_path

/-- `Device.persistent_id`: `'{0}/{1}'.format(self.import_path, self.id)`. -/
def Device.persistent_id (d : Device) : List Char :=
  d.import_path ++ '/' :: natToChars d.id

/-- `Device.__unicode__`: `'{0}: {1}'.format(self.user.username, self.name)`. -/
def Device.unicode (d : Device) : List Char :=
  d.user.username ++ ':' :: ' ' :: d.name

/-- Modelled from the spec: `import_class` is imported from the package root
(`from . import import_class`), whose source is not in this tree; the spec
calls it "a dynamic-class-lookup-by-string helper" resolving a dotted
`module.ClassName` string to the class it names. We model the importable
classes as a registry and the helper as lookup by import path. -/
def import_class (reg : List DeviceClass) (path : List Char) : Option DeviceClass :=
  reg.find? (fun c => decide (c.import_path = path))

/-- Outcome of the framework's `Manager.get`: the unique matching row, or
the exception it raises (`DoesNotExist` on zero rows,
`MultipleObjectsReturned` on several). -/
inductive GetResult where
  | found (d : Device)
  | missing
  | multiple
  deriving DecidableEq

/-- `device_cls.objects.get(id=device_id)`: returns the row of that class
with the given primary key when there is exactly one; raises `DoesNotExist`
on zero matches and `MultipleObjectsReturned` on several. Both exception
classes subclass `Exception` directly, not `StandardError`. A pure read: the
database comes back unchanged. -/
def objects_get (device_cls : DeviceClass) (device_id : Int) (db : DB) :
    GetResult × DB :=
  match db.filter
      (fun d => decide (d.cls = device_cls) && decide ((d.id : Int) = device_id)) with
  | [d] => (GetResult.found d, db)
  | [] => (GetResult.missing, db)
  | _ => (GetResult.multiple, db)

/-- Outcome of `from_persistent_id`: a device, the `None` produced by the
`except StandardError` clause, or an exception that escaped that clause. -/
inductive LookupResult where
  | device (d : Device)
  | none
  | raised
  deriving DecidableEq

/-- `DeviceManager.from_persistent_id`: rsplit at the last `/`, import the
class named by the left part, coerce the right part to an int and fetch the
row with that id. The `except StandardError` clause catches the ValueError
from unpacking `rsplit`, the ImportError or AttributeError from
`import_class`, and the ValueError from the int coercion, turning each into
`None` — but the `DoesNotExist` or `MultipleObjectsReturned` raised by a
failing `get` subclasses `Exception` directly (Python 2), is not caught, and
escapes. -/
def from_persistent_id (reg : List DeviceClass) (path : List Char) (db : DB) :
    LookupResult × DB :=
  match rsplitLast '/' path with
  | Option.none => (LookupResult.none, db)
  | some (device_type, device_id) =>
    match import_class reg device_type with
    | Option.none => (LookupResult.none, db)
    | some device_cls =>
      match parsePyInt device_id with
      | Option.none => (LookupResult.none, db)
      | some i =>
        match objects_get device_cls i db with
        | (GetResult.found d, db1) => (LookupResult.device d, db1)
        | (GetResult.missing, db1) => (LookupResult.raised, db1)
        | (GetResult.multiple, db1) => (LookupResult.raised, db1)

/-- `self.model.objects`: the saved rows of the manager's own model. -/
def model_objects (model : DeviceClass) (db : DB) : List Device :=
  db.filter (fun d => decide (d.cls = model))

/-- `DeviceManager.devices_for_user`: filter the manager's model's rows
(`self.model.objects`) by user, and when `confirmed` is not `None` filter
again by `confirmed=bool(confirmed)`. A pure read: the database comes back
unchanged. -/
def devices_for_user (model : DeviceClass) (u : User) (confirmed : PyVal)
    (db : DB) : List Device × DB :=
  let devices := (model_objects model db).filter (fun d => decide (d.user = u))
  if confirmed = PyVal.none then (devices, db)
  else (devices.filter (fun d => decide (d.confirmed = PyVal.toBool confirmed)), db)

/-- `Device.generate_challenge` on the base class: `return None`, touching
nothing. -/
def Device.generate_challenge (_self : Device) (db : DB) :
    Option (List Char) × DB :=
  (Option.none, db)

/-- `Device.verify_token` on the base class: `return False`, touching
nothing. -/
def Device.verify_token (_self : Device) (_token : List Char) (db : DB) :
    Bool × DB :=
  (false, db)

/-- A declared model field, with the options the source sets. -/
inductive FieldDecl where
  | foreignKey (fname : String) (target : String)
  | charField (fname : String) (max_length : Nat)
  | booleanField (fname : String) (default : Bool)
  deriving DecidableEq

/-- The persisted fields the abstract `Device` model declares:
`user = models.ForeignKey('auth.User')`, `name = models.CharField(max_length=64)`,
`confirmed = models.BooleanField(default=True)`. -/
def Device.schema : List FieldDecl :=
  [FieldDecl.foreignKey "user" "auth.User",
   FieldDecl.charField "name" 64,
   FieldDecl.booleanField "confirmed" true]

/-- Instantiating a device without passing `confirmed` uses the declared
field default `True`. -/
def Device.create (cls : DeviceClass) (i : Nat) (u : User) (name : List Char) :
    Device :=
  { cls := cls, id := i, user := u, name := name, confirmed := true }

/-- Concrete fixture: a device class with import path `m.C`. -/
def sampleClass : DeviceClass := ⟨['m'], ['C']⟩

/-- Concrete fixture: a user. -/
def sampleUser : User := ⟨1, ['u']⟩

/-- Concrete fixture: a saved device of `sampleClass` owned by `sampleUser`. -/
def sampleDevice : Device := ⟨sampleClass, 3, sampleUser, ['n'], true⟩

/-- Concrete fixture: a one-row database. -/
def sampleDB : DB := [sampleDevice]

/-- Concrete fixture: a registry holding `sampleClass`. -/
def sampleReg : List DeviceClass := [sampleClass]

/-! ## Helper lemmas -/

theorem digitChar_toNat (r : Nat) (h : r < 10) : (digitChar r).toNat = 48 + r := by
  interval_cases r <;> rfl

theorem digitChar_isDigit (r : Nat) (h : r < 10) : (digitChar r).isDigit = true := by
  interval_cases r <;> rfl

theorem natToCharsAux_append (n : Nat) :
    ∀ acc : List Char, natToCharsAux n acc = natToCharsAux n [] ++ acc := by
  induction n using Nat.strong_induction_on with
  | _ n ih =>
    intro acc
    rcases n with _ | m
    · simp [natToCharsAux]
    · rw [natToCharsAux, natToCharsAux]
      rw [ih ((m + 1) / 10) (Nat.div_lt_self (Nat.succ_pos m) (by decide))
        (digitChar ((m + 1) % 10) :: acc)]
      rw [ih ((m + 1) / 10) (Nat.div_lt_self (Nat.succ_pos m) (by decide))
        [digitChar ((m + 1) % 10)]]
      simp

theorem foldl_digitsStep_natToCharsAux (n : Nat) :
    ∀ a : Nat, List.foldl digitsStep a (natToCharsAux n []) =
      a * 10 ^ (natToCharsAux n []).length + n := by
  induction n using Nat.strong_induction_on with
  | _ n ih =>
    intro a
    rcases n with _ | m
    · simp [natToCharsAux]
    · rw [natToCharsAux,
        natToCharsAux_append ((m + 1) / 10) [digitChar ((m + 1) % 10)]]
      rw [List.foldl_append]
      rw [ih ((m + 1) / 10) (Nat.div_lt_self (Nat.succ_pos m) (by decide)) a]
      simp only [List.foldl_cons, List.foldl_nil, digitsStep]
      rw [digitChar_toNat ((m + 1) % 10) (Nat.mod_lt _ (by decide))]
      rw [List.length_append, List.length_singleton, pow_succ, ← mul_assoc]
      generalize a * 10 ^ (natToCharsAux ((m + 1) / 10) []).length = A
      omega

theorem natToCharsAux_all_isDigit (n : Nat) :
    ∀ c ∈ natToCharsAux n [], c.isDigit = true := by
  induction n using Nat.strong_induction_on with
  | _ n ih =>
    rcases n with _ | m
    · simp [natToCharsAux]
    · rw [natToCharsAux,
        natToCharsAux_append ((m + 1) / 10) [digitChar ((m + 1) % 10)]]
      intro c hc
      rcases List.mem_append.mp hc with h | h
      · exact ih ((m + 1) / 10) (Nat.div_lt_self (Nat.succ_pos m) (by decide)) c h
      · rcases List.mem_singleton.mp h with rfl
        exact digitChar_isDigit _ (Nat.mod_lt _ (by decide))

theorem natToChars_all_isDigit (n : Nat) :
    ∀ c ∈ natToChars n, c.isDigit = true := by
  rcases Nat.eq_zero_or_pos n with rfl | h
  · intro c hc
    rcases List.mem_singleton.mp hc with rfl
    decide
  · rw [natToChars, if_neg (Nat.pos_iff_ne_zero.mp h)]
    exact natToCharsAux_all_isDigit n

theorem natToChars_ne_nil (n : Nat) : natToChars n ≠ [] := by
  rcases Nat.eq_zero_or_pos n with rfl | h
  · decide
  · rw [natToChars, if_neg (Nat.pos_iff_ne_zero.mp h)]
    rcases n with _ | m
    · exact absurd h (by decide)
    · rw [natToCharsAux,
        natToCharsAux_append ((m + 1) / 10) [digitChar ((m + 1) % 10)]]
      simp

theorem foldl_digitsStep_natToChars (n : Nat) :
    (natToChars n).foldl digitsStep 0 = n := by
  rcases Nat.eq_zero_or_pos n with rfl | h
  · decide
  · rw [natToChars, if_neg (Nat.pos_iff_ne_zero.mp h),
      foldl_digitsStep_natToCharsAux n 0]
    simp

theorem isDigit_not_isWhitespace (c : Char) (h : c.isDigit = true) :
    c.isWhitespace = false := by
  cases hw : c.isWhitespace with
  | false => rfl
  | true =>
    exfalso
    simp [Char.isWhitespace] at hw
    rcases hw with ((rfl | rfl) | rfl) | rfl <;> exact absurd h (by decide)

theorem dropWhile_whitespace_of_digits (l : List Char)
    (h : ∀ c ∈ l, c.isDigit = true) :
    l.dropWhile Char.isWhitespace = l := by
  cases l with
  | nil => rfl
  | cons c cs =>
    rw [List.dropWhile_cons,
      isDigit_not_isWhitespace c (h c (List.mem_cons_self c cs))]
    simp

theorem parseSigned_digits (l : List Char) (hne : l ≠ [])
    (hdig : ∀ c ∈ l, c.isDigit = true) :
    parseSigned l = some ((l.foldl digitsStep 0 : Nat) : Int) := by
  cases l with
  | nil => exact absurd rfl hne
  | cons c cs =>
    have hc := hdig c (List.mem_cons_self c cs)
    unfold parseSigned
    split
    · rename_i rest heq
      injection heq with h1 h2
      rw [h1] at hc
      exact absurd hc (by decide)
    · rename_i rest heq
      injection heq with h1 h2
      rw [h1] at hc
      exact absurd hc (by decide)
    · rw [if_pos ⟨List.cons_ne_nil c cs, List.all_eq_true.mpr hdig⟩]

theorem parsePyInt_natToChars (n : Nat) :
    parsePyInt (natToChars n) = some ((n : Nat) : Int) := by
  have hdig := natToChars_all_isDigit n
  rw [parsePyInt, dropWhile_whitespace_of_digits (natToChars n) hdig]
  rw [dropWhile_whitespace_of_digits (natToChars n).reverse
    (fun c hc => hdig c (List.mem_reverse.mp hc))]
  rw [List.reverse_reverse]
  rw [parseSigned_digits (natToChars n) (natToChars_ne_nil n) hdig]
  rw [foldl_digitsStep_natToChars n]

theorem rsplitLast_eq_none_iff (sep : Char) (l : List Char) :
    rsplitLast sep l = Option.none ↔ sep ∉ l := by
  induction l with
  | nil => simp [rsplitLast]
  | cons c cs ih =>
    rw [rsplitLast]
    cases h : rsplitLast sep cs with
    | some p =>
      simp only [reduceCtorEq, false_iff, List.mem_cons, not_or]
      intro hmem
      have : sep ∈ cs := by
        by_contra hn
        rw [(ih.mpr hn : rsplitLast sep cs = Option.none)] at h
        exact absurd h (by simp)
      exact hmem.2 this
    | none =>
      have hns : sep ∉ cs := ih.mp h
      by_cases hc : c = sep
      · subst hc
        simp [List.mem_cons]
      · rw [if_neg hc]
        simp only [true_iff, List.mem_cons, not_or]
        exact ⟨fun he => hc he.symm, hns⟩

theorem rsplitLast_append (sep : Char) (l r : List Char) (h : sep ∉ r) :
    rsplitLast sep (l ++ sep :: r) = some (l, r) := by
  induction l with
  | nil =>
    rw [List.nil_append, rsplitLast, (rsplitLast_eq_none_iff sep r).mpr h]
    simp
  | cons c cs ih =>
    rw [List.cons_append, rsplitLast, ih]

theorem isDigit_ne_slash (c : Char) (h : c.isDigit = true) : c ≠ '/' := by
  intro hc
  rw [hc] at h
  exact absurd h (by decide)

theorem slash_not_mem_natToChars (n : Nat) : '/' ∉ natToChars n := by
  intro hmem
  exact isDigit_ne_slash _ (natToChars_all_isDigit n _ hmem) rfl

theorem filter_eq_singleton {α : Type} (p : α → Bool) (l : List α) (a : α)
    (ha : a ∈ l) (hnd : l.Nodup) (hpa : p a = true)
    (huniq : ∀ x ∈ l, p x = true → x = a) :
    l.filter p = [a] := by
  induction l with
  | nil => exact absurd ha (List.not_mem_nil a)
  | cons x xs ih =>
    rcases List.nodup_cons.mp hnd with ⟨hxn, hxs⟩
    rcases List.mem_cons.mp ha with rfl | hax
    · rw [List.filter_cons_of_pos hpa]
      have : xs.filter p = [] := by
        rw [List.filter_eq_nil_iff]
        intro y hy hpy
        exact hxn ((huniq y (List.mem_cons_of_mem _ hy) hpy) ▸ hy)
      rw [this]
    · have hpx : p x = false := by
        by_contra hpc
        have := huniq x (List.mem_cons_self x xs) (by simpa using hpc)
        subst this
        exact hxn hax
      rw [List.filter_cons_of_neg (by simp [hpx])]
      exact ih hax hxs (fun y hy hpy => huniq y (List.mem_cons_of_mem _ hy) hpy)

theorem objects_get_snd (cls : DeviceClass) (i : Int) (db : DB) :
    (objects_get cls i db).2 = db := by
  unfold objects_get
  split <;> rfl

theorem mem_devices_for_user (model : DeviceClass) (u : User) (c : PyVal)
    (db : DB) (d : Device) :
    d ∈ (devices_for_user model u c db).1 ↔
      d ∈ db ∧ d.cls = model ∧ d.user = u
        ∧ (c = PyVal.none ∨ d.confirmed = PyVal.toBool c) := by
  by_cases hc : c = PyVal.none
  · subst hc
    simp only [devices_for_user, if_pos rfl]
    simp [model_objects, List.mem_filter, and_assoc]
    tauto
  · simp only [devices_for_user, if_neg hc]
    simp only [model_objects, List.mem_filter, decide_eq_true_eq]
    simp [hc, and_assoc]

/-! ## Claim theorems -/

/-- C5: for every device `d`, `d.persistent_id` is its import path, a `/`,
and the decimal id, where the import path is the defining module name, a
`.`, and the class name; consequently splitting the persistent id at its
last `/` recovers exactly the import path on the left and the id string on
the right. -/
theorem persistent_id_format (d : Device) :
    d.persistent_id = d.import_path ++ '/' :: natToChars d.id
    ∧ d.import_path = d.cls.modName ++ '.' :: d.cls.clsName
    ∧ rsplitLast '/' d.persistent_id = some (d.import_path, natToChars d.id) :=
  ⟨rfl, rfl,
    rsplitLast_append '/' d.import_path (natToChars d.id) (slash_not_mem_natToChars d.id)⟩

/-- C10: for every device `d`, `Device.__unicode__` renders the owning
user's username, the two characters `: `, then the device's name. -/
theorem unicode_format (d : Device) :
    Device.unicode d = d.user.username ++ [':', ' '] ++ d.name := by
  simp [Device.unicode]

/-- C4: on the base `Device` class, `generate_challenge` returns `None` for
every device and `verify_token` returns `False` for every device and token;
both leave the database untouched. -/
theorem base_extension_points_noop :
    (∀ (d : Device) (db : DB), Device.generate_challenge d db = (Option.none, db))
    ∧ (∀ (d : Device) (t : List Char) (db : DB),
        Device.verify_token d t db = (false, db)) :=
  ⟨fun _ _ => rfl, fun _ _ _ => rfl⟩

/-- C6: the abstract `Device` model declares exactly three persisted fields:
a foreign key `user` to `auth.User`, a `name` string capped at 64
characters, and a boolean `confirmed` defaulting to `True`; a device created
without specifying `confirmed` is confirmed. -/
theorem device_schema_decl :
    Device.schema = [FieldDecl.foreignKey "user" "auth.User",
      FieldDecl.charField "name" 64,
      FieldDecl.booleanField "confirmed" true]
    ∧ (∀ (cls : DeviceClass) (i : Nat) (u : User) (nm : List Char),
        (Device.create cls i u nm).confirmed = true) :=
  ⟨rfl, fun _ _ _ _ => rfl⟩

/-- C7: the two manager helpers are pure queries: `from_persistent_id` and
`devices_for_user` return the database exactly as they received it, for
every input and on every path, whether the lookup returns a device, returns
`None`, or raises. -/
theorem manager_helpers_pure :
    (∀ (reg : List DeviceClass) (path : List Char) (db : DB),
        (from_persistent_id reg path db).2 = db)
    ∧ (∀ (model : DeviceClass) (u : User) (c : PyVal) (db : DB),
        (devices_for_user model u c db).2 = db) := by
  constructor
  · intro reg path db
    rw [from_persistent_id]
    split
    · rfl
    · split
      · rfl
      · split
        · rfl
        · split <;> rename_i heq <;>
            exact (congrArg Prod.snd heq).symm.trans (objects_get_snd _ _ _)
  · intro model u c db
    simp only [devices_for_user]
    split <;> rfl

/-- C3: for every user `u`, `devices_for_user(u, None)` returns exactly the
devices of the manager's model whose `user` field is `u`; for every
non-`None` `confirmed` argument `c` it returns exactly those devices of the
manager's model belonging to `u` whose `confirmed` field equals `bool(c)`. -/
theorem devices_for_user_spec (model : DeviceClass) (u : User) (db : DB) :
    (∀ d : Device, d ∈ (devices_for_user model u PyVal.none db).1 ↔
      d ∈ db ∧ d.cls = model ∧ d.user = u)
    ∧ (∀ c : PyVal, c ≠ PyVal.none → ∀ d : Device,
        d ∈ (devices_for_user model u c db).1 ↔
          d ∈ db ∧ d.cls = model ∧ d.user = u ∧ d.confirmed = PyVal.toBool c) := by
  constructor
  · intro d
    rw [mem_devices_for_user]
    simp
  · intro c hc d
    rw [mem_devices_for_user]
    simp [hc]

/-- Witness for C3 at a concrete model, user, database and truthy argument. -/
theorem devices_for_user_spec_witness :
    sampleDevice ∈ (devices_for_user sampleClass sampleUser (PyVal.int 1) sampleDB).1 :=
  ((devices_for_user_spec sampleClass sampleUser sampleDB).2 (PyVal.int 1)
    (by decide) sampleDevice).mpr (by decide)

/-- C8: for every model and user `u`, the devices returned by
`devices_for_user(u, None)` are exactly the disjoint union of those returned
by `devices_for_user(u, True)` and `devices_for_user(u, False)`. -/
theorem devices_for_user_partition (model : DeviceClass) (u : User) (db : DB) :
    (∀ d : Device, d ∈ (devices_for_user model u PyVal.none db).1 ↔
      d ∈ (devices_for_user model u (PyVal.bool true) db).1
      ∨ d ∈ (devices_for_user model u (PyVal.bool false) db).1)
    ∧ (∀ d : Device, ¬(d ∈ (devices_for_user model u (PyVal.bool true) db).1
      ∧ d ∈ (devices_for_user model u (PyVal.bool false) db).1)) := by
  constructor
  · intro d
    rw [mem_devices_for_user, mem_devices_for_user, mem_devices_for_user]
    cases hb : d.confirmed <;> simp [PyVal.toBool, hb]
  · intro d hd
    rw [mem_devices_for_user, mem_devices_for_user] at hd
    rcases hd with ⟨⟨-, -, -, h1⟩, ⟨-, -, -, h2⟩⟩
    rcases h1 with h1 | h1
    · exact PyVal.noConfusion h1
    rcases h2 with h2 | h2
    · exact PyVal.noConfusion h2
    rw [h1] at h2
    exact absurd h2 (by decide)

/-- C9: for every model, user `u` and non-`None` value `c`,
`devices_for_user(u, c)` returns the same devices as
`devices_for_user(u, bool(c))`: any truthy `c` is equivalent to `True` and
any falsy non-`None` `c` to `False`. -/
theorem devices_for_user_truthiness (model : DeviceClass) (u : User)
    (c : PyVal) (hc : c ≠ PyVal.none) (db : DB) :
    (devices_for_user model u c db).1 =
      (devices_for_user model u (PyVal.bool (PyVal.toBool c)) db).1 := by
  simp only [devices_for_user, if_neg hc]
  rfl

/-- Witness for C9 at the truthy string `'y'`. -/
theorem devices_for_user_truthiness_witness :
    (devices_for_user sampleClass sampleUser (PyVal.str ['y']) sampleDB).1 =
      (devices_for_user sampleClass sampleUser
        (PyVal.bool (PyVal.toBool (PyVal.str ['y']))) sampleDB).1 :=
  devices_for_user_truthiness sampleClass sampleUser (PyVal.str ['y'])
    (by decide) sampleDB

/-- C2: the failure behaviour of `from_persistent_id`, evaluated on a
concrete registry and database. The three caught failure modes do return
`None`: a path without a `/` separator, a path whose class cannot be
imported, and an id string the int coercion rejects. But the claim also
asserts `None` when no row with the given id exists, and there the code
raises instead of returning: `except StandardError` (Python 2) does not
catch Django's `DoesNotExist`, which subclasses `Exception` directly — shown
by the well-formed identifier `m.C/7` whose row is absent. -/
theorem from_persistent_id_failure_paths :
    (from_persistent_id sampleReg ['x'] sampleDB).1 = LookupResult.none
    ∧ (from_persistent_id sampleReg ['q', '/', '3'] sampleDB).1 = LookupResult.none
    ∧ (from_persistent_id sampleReg ['m', '.', 'C', '/', 'z'] sampleDB).1
        = LookupResult.none
    ∧ (from_persistent_id sampleReg ['m', '.', 'C', '/', '7'] sampleDB).1
        = LookupResult.raised := by
  decide

/-- C1: persistent-identifier round trip. For a saved device `d` of a
registered concrete class (import paths identify registry classes uniquely,
and class + id is a primary key over the distinct saved rows),
`from_persistent_id` applied to `d.persistent_id` returns `d` itself. -/
theorem from_persistent_id_roundtrip (reg : List DeviceClass) (db : DB)
    (d : Device) (hmem : d ∈ db) (hnd : db.Nodup)
    (hpk : ∀ d' ∈ db, d'.cls = d.cls → d'.id = d.id → d' = d)
    (hreg : d.cls ∈ reg)
    (hinj : ∀ c1 ∈ reg, ∀ c2 ∈ reg,
      DeviceClass.import_path c1 = DeviceClass.import_path c2 → c1 = c2) :
    (from_persistent_id reg d.persistent_id db).1 = LookupResult.device d := by
  have hsplit : rsplitLast '/' d.persistent_id =
      some (d.import_path, natToChars d.id) :=
    rsplitLast_append '/' d.import_path (natToChars d.id)
      (slash_not_mem_natToChars d.id)
  have himp : import_class reg d.import_path = some d.cls := by
    rw [import_class]
    cases hf : reg.find? (fun c => decide (c.import_path = d.import_path)) with
    | none =>
      exfalso
      have := List.find?_eq_none.mp hf d.cls hreg
      simp [Device.import_path] at this
    | some c =>
      have hc1 : c ∈ reg := List.mem_of_find?_eq_some hf
      have hc2 := List.find?_some hf
      simp only [decide_eq_true_eq] at hc2
      rw [hinj c hc1 d.cls hreg hc2]
  have hfil : db.filter
      (fun x => decide (x.cls = d.cls) && decide ((x.id : Int) = (d.id : Int))) = [d] :=
    filter_eq_singleton _ db d hmem hnd (by simp)
      (fun x hx hpx => by
        simp only [Bool.and_eq_true, decide_eq_true_eq, Nat.cast_inj] at hpx
        exact hpk x hx hpx.1 hpx.2)
  have hobj : objects_get d.cls ((d.id : Int)) db = (GetResult.found d, db) := by
    unfold objects_get
    rw [hfil]
  rw [from_persistent_id, hsplit]
  dsimp only
  rw [himp]
  dsimp only
  rw [parsePyInt_natToChars d.id]
  dsimp only
  rw [hobj]

/-- Witness for C1 on a concrete one-row database and registry. -/
theorem from_persistent_id_roundtrip_witness :
    (from_persistent_id sampleReg (Device.persistent_id sampleDevice) sampleDB).1
      = LookupResult.device sampleDevice :=
  from_persistent_id_roundtrip sampleReg sampleDB sampleDevice (by decide)
    (by decide) (by decide) (by decide) (by decide)
